import Mathlib

/-!
Verification development for `sherpa/bin/offline_transducer_asr.py`, the
standalone offline transducer speech-recognition driver.

The script is embedded shallowly:

* command-line arguments become the structure `Args` (floats become `ℚ`,
  an omitted string flag becomes `Option String`);
* the file system is an explicit predicate `fs : String → Bool`
  (`Path(p).is_file()` becomes `fs p`);
* `check_args` is translated guard by guard, in source order, into an
  `Except ConfigError Unit` value;
* external collaborators (torchaudio decoding and resampling, the neural
  recognition engine) are parameters of the functions that call them;
* `main` is a pure function from an ambient `World` to the list of
  resource events it performs plus its printed output.
-/

/-- Errors raised by `check_args` (each constructor corresponds to one
`raise ValueError` / failing `assert` site in the source). -/
inductive ConfigError where
  | missingFile (path : String)
  | unsupportedMethod (m : Option String)
  | incompatibleOption
  | invalidValue (which : String)
  | noInputFiles
  deriving DecidableEq, Repr

/-- The parsed command-line arguments of `offline_transducer_asr.py`.
Flags declared without a default in `argparse` are `Option String`
(argparse stores `None` when they are omitted); float-typed flags are
modelled as rationals. -/
structure Args where
  nn_model : String
  tokens : String
  sample_rate : Nat := 16000
  feat_dim : Nat := 80
  use_bbpe : Bool := false
  decoding_method : Option String
  num_active_paths : Int := 4
  bpe_model : String := ""
  modeling_unit : String := "char"
  contexts : String := ""
  context_score : ℚ := 3/2
  temperature : ℚ := 1
  max_contexts : Int := 8
  max_states : Int := 64
  allow_partial : Bool := true
  lg : String := ""
  ngram_lm_scale : ℚ := 1/100
  beam : ℚ := 4
  use_gpu : Bool := false
  num_threads : Int := 1
  sound_files : List String
  deriving DecidableEq, Repr

/-- The three values accepted by the `decoding_method` membership test in
`check_args`. -/
def supportedMethods : List (Option String) :=
  [some "greedy_search", some "modified_beam_search", some "fast_beam_search"]

/-- Drop leading and trailing characters satisfying `p`. -/
def trimListP (p : Char → Bool) (l : List Char) : List Char :=
  ((l.dropWhile p).reverse.dropWhile p).reverse

/-- Python's `s.strip()`: remove leading and trailing whitespace. -/
def pyStrip (s : String) : String :=
  String.mk (trimListP Char.isWhitespace s.toList)

/-- Split a character list at every character satisfying `p`, keeping
empty pieces (the behaviour of Python's `str.split(sep)` for a
one-character separator, with `p` testing for the separator). -/
def splitListP (p : Char → Bool) : List Char → List (List Char)
  | [] => [[]]
  | c :: rest =>
    if p c then
      [] :: splitListP p rest
    else
      match splitListP p rest with
      | [] => [[c]]
      | piece :: pieces => (c :: piece) :: pieces

/-- Python's `s.split("/")`: split on every `/`, keeping empty pieces. -/
def pySplitSlash (s : String) : List String :=
  (splitListP (fun c => c = '/') s.toList).map String.mk

/-- Python's `s.upper()` (restricted to ASCII case mapping). -/
def pyUpper (s : String) : String :=
  String.mk (s.toList.map Char.toUpper)

/-- Python's `needle in hay` substring test. -/
def pyIn (needle hay : String) : Bool :=
  decide (needle.toList <:+: hay.toList)

/-- The validator `check_args(args)` from the source, with the file system explicit.
The guards appear in source order; the Python nesting
`if contexts.strip() != "": assert method == modified_beam_search; if "bpe" in
modeling_unit: assert is_file(bpe_model)` is linearized into two consecutive
guards with the same first-failure semantics. -/
def check_args (fs : String → Bool) (a : Args) : Except ConfigError Unit :=
  if fs a.nn_model = false then
    .error (.missingFile a.nn_model)
  else if fs a.tokens = false then
    .error (.missingFile a.tokens)
  else if a.decoding_method ∉ supportedMethods then
    .error (.unsupportedMethod a.decoding_method)
  else if pyStrip a.contexts ≠ "" ∧ a.decoding_method ≠ some "modified_beam_search" then
    .error .incompatibleOption
  else if pyStrip a.contexts ≠ "" ∧ pyIn "bpe" a.modeling_unit = true ∧ fs a.bpe_model = false then
    .error (.missingFile a.bpe_model)
  else if a.decoding_method = some "modified_beam_search" ∧ ¬ 0 < a.num_active_paths then
    .error (.invalidValue "num_active_paths")
  else if a.decoding_method = some "modified_beam_search" ∧ ¬ 0 < a.temperature then
    .error (.invalidValue "temperature")
  else if a.decoding_method = some "fast_beam_search" ∧ a.lg ≠ "" ∧ fs a.lg = false then
    .error (.missingFile a.lg)
  else if a.sound_files = [] then
    .error .noInputFiles
  else
    match a.sound_files.find? (fun f => ! fs f) with
    | some f => .error (.missingFile f)
    | none => .ok ()

/-- The context-phrase preprocessing in `main`:
`[x.strip().upper() for x in args.contexts.split("/") if x.strip()]`. -/
def contextsOf (s : String) : List String :=
  ((pySplitSlash s).filter (fun x => pyStrip x ≠ "")).map (fun x => pyUpper (pyStrip x))

/-- The same preprocessing as the specification phrases it: split on `/`,
trim each piece, drop pieces empty after trimming, upper-case the rest. -/
def contextsSpec (s : String) : List String :=
  (((pySplitSlash s).map pyStrip).filter (fun x => x ≠ "")).map pyUpper

section Loader

variable {S : Type} {T : Type}

/-- The audio loader `read_sound_files(filenames, expected_sample_rate)` from the source.
`torchaudio.load` is the explicit parameter `decodeWave` returning the
decoded waveform (a list of channels) and its native sample rate;
`torchaudio.functional.resample` is the parameter `resample`.  `wave[0]`
(first-channel selection) becomes `headD []`. -/
def read_sound_files (decodeWave : String → List (List S) × Nat)
    (resample : List (List S) → Nat → Nat → List (List S))
    (filenames : List String) (expected_sample_rate : Nat) : List (List S) :=
  filenames.map (fun f =>
    let wsr := decodeWave f
    let wave := if wsr.2 ≠ expected_sample_rate
      then resample wsr.1 wsr.2 expected_sample_rate
      else wsr.1
    wave.headD [])

end Loader

/-- Errors raised while loading the token table inside `encode_contexts`
(each constructor is one failing `assert` / raising conversion in the
source loop). -/
inductive TokenError where
  | badLine (numFields : Nat)
  | duplicateToken (t : String)
  | badInt (s : String)
  deriving DecidableEq, Repr

/-- Python's `s.split()`: split on runs of whitespace, dropping empty
pieces. -/
def pySplitWs (s : String) : List String :=
  ((splitListP Char.isWhitespace s.toList).filter (fun x => x ≠ [])).map String.mk

/-- Python's `int(s)` on a decimal literal: an optional sign followed by
at least one digit; anything else raises (is `none`). -/
def pyToInt (s : String) : Option Int :=
  let go : List Char → Option Nat := fun l =>
    if l = [] then none
    else l.foldl
      (fun acc? c => acc?.bind
        (fun acc => if c.isDigit then some (acc * 10 + (c.toNat - 48)) else none))
      (some 0)
  match s.toList with
  | '-' :: rest => (go rest).map (fun n => -(n : Int))
  | '+' :: rest => (go rest).map (fun n => (n : Int))
  | l => (go l).map (fun n => (n : Int))

/-- One iteration of the token-table loading loop in `encode_contexts`:
`toks = line.strip().split(); assert len(toks) == 2;
assert toks[0] not in tokens; tokens[toks[0]] = int(toks[1])`.
The dict is an association list extended at the end; the duplicate check
is the `assert toks[0] not in tokens`. -/
def load_tokens : List String → List (String × Int) → Except TokenError (List (String × Int))
  | [], acc => .ok acc
  | line :: rest, acc =>
    match pySplitWs (pyStrip line) with
    | [t, v] =>
      if (acc.map Prod.fst).contains t then
        .error (.duplicateToken t)
      else
        match pyToInt v with
        | some n => load_tokens rest (acc ++ [(t, n)])
        | none => .error (.badInt v)
    | toks => .error (.badLine toks.length)

/-- The token table built by `encode_contexts` from the lines of
`args.tokens`. -/
def loadTokens (lines : List String) : Except TokenError (List (String × Int)) :=
  load_tokens lines []

/-- A well-formed vocabulary line as the loader accepts it: exactly two
whitespace-separated fields, the second one an integer. -/
def parseLine (line : String) : Option (String × Int) :=
  match pySplitWs (pyStrip line) with
  | [t, v] => (pyToInt v).map (fun n => (t, n))
  | _ => none

instance {E A : Type} [DecidableEq E] [DecidableEq A] : DecidableEq (Except E A) := fun a b =>
  match a, b with
  | .ok x, .ok y => if h : x = y then .isTrue (by simp [h]) else .isFalse (by simp [h])
  | .error x, .error y => if h : x = y then .isTrue (by simp [h]) else .isFalse (by simp [h])
  | .ok _, .error _ => .isFalse (by simp)
  | .error _, .ok _ => .isFalse (by simp)

section Streams

variable {S T : Type}

/-- An `sherpa.OfflineStream`: the samples bound by `accept_samples`, the
contexts list the stream was created with, and the `result` slot filled by
`decode_streams`. -/
structure OfflineStream (S T : Type) where
  contexts : List String
  samples : List S
  result : Option T
  deriving DecidableEq, Repr

/-- One internal engine step of `recognizer.decode_streams`: decode the
stream at position `i`, writing its transcript into that stream's
`result` slot.  Out-of-range positions do nothing. -/
def decodeOne (engine : List String → List S → T)
    (ss : List (OfflineStream S T)) (i : Nat) : List (OfflineStream S T) :=
  match ss[i]? with
  | some s => ss.set i { s with result := some (engine s.contexts s.samples) }
  | none => ss

/-- The batched decode `recognizer.decode_streams(streams)`: the opaque engine processes the
streams in some internal order `order` (modelling any reordering/padding
it performs), filling each stream's result in place. -/
def decode_streams (engine : List String → List S → T) (order : List Nat)
    (streams : List (OfflineStream S T)) : List (OfflineStream S T) :=
  order.foldl (decodeOne engine) streams

/-- Observable resource events of `main`, in the order `main` performs
them. -/
inductive Event where
  | modelLoaded
  | audioRead (f : String)
  | decodedBatch
  deriving DecidableEq, Repr

/-- The ambient world `main` runs in: the file system, the torchaudio
decoder and resampler, the opaque recognition engine (a transcript per
(contexts, samples) pair) and the engine's internal processing order. -/
structure World (S T : Type) where
  fs : String → Bool
  decodeWave : String → List (List S) × Nat
  resample : List (List S) → Nat → Nat → List (List S)
  engine : List String → List S → T
  order : List Nat

/-- The driver `main()` from the source as a pure function: returns the resource
events performed and, on success, the printed `(filename, result)` blocks
in print order.  Mirrors the source statement order: `check_args`, then
`create_recognizer` (model load), then `read_sound_files`, then context
splitting, then per-sample stream creation, then `decode_streams`, then
`zip(args.sound_files, streams)` printing. -/
def mainFn (w : World S T) (a : Args) :
    List Event × Except ConfigError (List (String × Option T)) :=
  match check_args w.fs a with
  | .error e => ([], .error e)
  | .ok _ =>
    let samples := read_sound_files w.decodeWave w.resample a.sound_files a.sample_rate
    let contexts := contextsOf a.contexts
    let streams := samples.map (fun s => OfflineStream.mk contexts s none)
    let decoded := decode_streams w.engine w.order streams
    ([Event.modelLoaded] ++ a.sound_files.map Event.audioRead ++ [Event.decodedBatch],
      .ok (a.sound_files.zip (decoded.map OfflineStream.result)))

end Streams

/-- A file system for the concrete validation scenarios: exactly the
model, the token table and one input file exist. -/
def fsC2 : String → Bool := fun s => s == "model.pt" || s == "tokens.txt" || s == "a.wav"

/-- Arguments with an unsupported decoding method and a missing LG file
(all other required files exist). -/
def argsC2 : Args :=
  { nn_model := "model.pt", tokens := "tokens.txt", decoding_method := some "bogus",
    lg := "LG.pt", sound_files := ["a.wav"] }

/-- A file system for the whitespace-contexts scenario: exactly the model,
the token table and one input file exist. -/
def fsC3 : String → Bool := fun s => s == "model.pt" || s == "tokens.txt" || s == "a.wav"

/-- Arguments whose contexts string is non-empty but only whitespace, with
a decoding method other than modified_beam_search. -/
def argsC3 : Args :=
  { nn_model := "model.pt", tokens := "tokens.txt", decoding_method := some "greedy_search",
    contexts := " ", sound_files := ["a.wav"] }

/-- A file system for the separator-only contexts scenario: exactly the
model, the token table and one input file exist. -/
def fsC10 : String → Bool := fun s => s == "model.pt" || s == "tokens.txt" || s == "a.wav"

/-- Arguments whose contexts string consists of a single separator, with a
decoding method other than modified_beam_search. -/
def argsC10 : Args :=
  { nn_model := "model.pt", tokens := "tokens.txt", decoding_method := some "greedy_search",
    contexts := "/", sound_files := ["a.wav"] }

/-- A concrete world for batch runs: two decodable input files at the
expected rate, an engine whose transcript is the sample count, and an
internal processing order that reverses submission order. -/
def worldW : World Int Nat :=
  { fs := fun s => s == "model.pt" || s == "tokens.txt" || s == "a.wav" || s == "b.wav",
    decodeWave := fun f => if f == "a.wav" then ([[1, 2]], 16000) else ([[3, 4, 5]], 16000),
    resample := fun wv _ _ => wv,
    engine := fun _ samples => samples.length,
    order := [1, 0] }

/-- Arguments submitting a batch of two existing sound files. -/
def argsW1 : Args :=
  { nn_model := "model.pt", tokens := "tokens.txt", decoding_method := some "greedy_search",
    sound_files := ["a.wav", "b.wav"] }

/-- Inversion of `parseLine`: a successful parse pins the split fields
and the integer conversion. -/
theorem parseLine_eq_some {l : String} {t : String} {n : Int}
    (h : parseLine l = some (t, n)) :
    ∃ v, pySplitWs (pyStrip l) = [t, v] ∧ pyToInt v = some n := by
  unfold parseLine at h
  split at h
  · rename_i t' v heq
    rw [Option.map_eq_some'] at h
    obtain ⟨n', hn', hpair⟩ := h
    injection hpair with h1 h2
    subst h1; subst h2
    exact ⟨_, heq, hn'⟩
  · simp at h

/-- When every line parses and the tokens (accumulator included) are
pairwise distinct, the loading loop succeeds and appends the parsed
pairs to the accumulator. -/
theorem load_tokens_ok_of_nodup :
    ∀ (lines : List String) (acc pairs : List (String × Int)),
      lines.map parseLine = pairs.map some →
      ((acc ++ pairs).map Prod.fst).Nodup →
      load_tokens lines acc = .ok (acc ++ pairs) := by
  intro lines
  induction lines with
  | nil =>
    intro acc pairs hp _
    have : pairs = [] := by
      cases pairs with
      | nil => rfl
      | cons p ps => simp at hp
    subst this
    simp [load_tokens]
  | cons l rest ih =>
    intro acc pairs hp hnd
    cases pairs with
    | nil => simp at hp
    | cons p ps =>
      simp only [List.map_cons, List.cons.injEq] at hp
      obtain ⟨hl, hrest⟩ := hp
      obtain ⟨t, n⟩ := p
      obtain ⟨v, hs, hv⟩ := parseLine_eq_some hl
      have hmem : t ∉ acc.map Prod.fst := by
        intro hmemt
        rw [List.map_append] at hnd
        rw [List.nodup_append] at hnd
        exact hnd.2.2 hmemt (by simp)
      have hacc' : (((acc ++ [(t, n)]) ++ ps).map Prod.fst).Nodup := by
        rw [List.append_assoc]
        simpa using hnd
      have := ih (acc ++ [(t, n)]) ps hrest hacc'
      simp only [load_tokens, hs, hv]
      rw [if_neg (by simpa using hmem)]
      rw [this, List.append_assoc]
      rfl

/-- When every line parses, the accumulator keys are distinct, but the
combined keys are not, the loading loop stops at a duplicate-token
error. -/
theorem load_tokens_dup_error :
    ∀ (lines : List String) (acc pairs : List (String × Int)),
      lines.map parseLine = pairs.map some →
      (acc.map Prod.fst).Nodup →
      ¬ ((acc ++ pairs).map Prod.fst).Nodup →
      ∃ t, load_tokens lines acc = .error (.duplicateToken t) := by
  intro lines
  induction lines with
  | nil =>
    intro acc pairs hp hacc hdup
    have : pairs = [] := by
      cases pairs with
      | nil => rfl
      | cons p ps => simp at hp
    subst this
    simp at hdup
    exact absurd hacc hdup
  | cons l rest ih =>
    intro acc pairs hp hacc hdup
    cases pairs with
    | nil => simp at hp
    | cons p ps =>
      simp only [List.map_cons, List.cons.injEq] at hp
      obtain ⟨hl, hrest⟩ := hp
      obtain ⟨t, n⟩ := p
      obtain ⟨v, hs, hv⟩ := parseLine_eq_some hl
      by_cases hmem : t ∈ acc.map Prod.fst
      · refine ⟨t, ?_⟩
        simp only [load_tokens, hs]
        rw [if_pos (by simpa using hmem)]
      · have hacc' : ((acc ++ [(t, n)]).map Prod.fst).Nodup := by
          rw [List.map_append, List.nodup_append]
          exact ⟨hacc, List.nodup_singleton _, by
            intro x hx hx'
            simp at hx'
            subst hx'
            exact hmem hx⟩
        have hdup' : ¬ (((acc ++ [(t, n)]) ++ ps).map Prod.fst).Nodup := by
          rw [List.append_assoc]
          simpa using hdup
        obtain ⟨t', ht'⟩ := ih (acc ++ [(t, n)]) ps hrest hacc' hdup'
        refine ⟨t', ?_⟩
        simp only [load_tokens, hs, hv]
        rw [if_neg (by simpa using hmem)]
        exact ht'

/-- Association-list lookup retrieves every entry when the keys are
pairwise distinct. -/
theorem lookup_of_mem_nodup :
    ∀ (l : List (String × Int)) (p : String × Int),
      (l.map Prod.fst).Nodup → p ∈ l → l.lookup p.1 = some p.2 := by
  intro l
  induction l with
  | nil => intro p _ hp; simp at hp
  | cons q qs ih =>
    intro p hnd hp
    obtain ⟨a, b⟩ := q
    rcases List.mem_cons.mp hp with h | h
    · subst h
      simp [List.lookup_cons]
    · have hne : p.1 ≠ a := by
        intro hcontra
        simp only [List.map_cons, List.nodup_cons] at hnd
        exact hnd.1 (hcontra ▸ (List.mem_map.mpr ⟨p, h, rfl⟩))
      rw [List.lookup_cons]
      have hb : (p.1 == a) = false := by simpa using hne
      rw [hb]
      exact ih p (by simp only [List.map_cons, List.nodup_cons] at hnd; exact hnd.2) h

section StreamLemmas

variable {S T : Type}

theorem decodeOne_sig (engine : List String → List S → T)
    (ss : List (OfflineStream S T)) (j i : Nat) :
    ((decodeOne engine ss j)[i]?).map (fun s => (s.contexts, s.samples)) =
      (ss[i]?).map (fun s => (s.contexts, s.samples)) := by
  unfold decodeOne
  split
  · rename_i s hs
    by_cases hij : j = i
    · subst hij
      have hlt : j < ss.length := by
        by_contra hge
        rw [List.getElem?_eq_none (Nat.le_of_not_lt hge)] at hs
        exact Option.noConfusion hs
      rw [List.getElem?_set_self hlt, hs]
      simp
    · rw [List.getElem?_set_ne hij]
  · rfl

theorem decodeOne_other (engine : List String → List S → T)
    (ss : List (OfflineStream S T)) (j i : Nat) (hij : j ≠ i) :
    (decodeOne engine ss j)[i]? = ss[i]? := by
  unfold decodeOne
  split
  · exact List.getElem?_set_ne hij
  · rfl

theorem decode_streams_not_mem (engine : List String → List S → T) :
    ∀ (order : List Nat) (ss : List (OfflineStream S T)) (i : Nat),
      i ∉ order → (decode_streams engine order ss)[i]? = ss[i]? := by
  intro order
  induction order with
  | nil => intro ss i _; rfl
  | cons j rest ih =>
    intro ss i hmem
    have hji : j ≠ i := fun h => hmem (h ▸ List.mem_cons_self j rest)
    have hir : i ∉ rest := fun h => hmem (List.mem_cons_of_mem j h)
    calc (decode_streams engine (j :: rest) ss)[i]?
        = (decode_streams engine rest (decodeOne engine ss j))[i]? := rfl
      _ = (decodeOne engine ss j)[i]? := ih _ i hir
      _ = ss[i]? := decodeOne_other engine ss j i hji

theorem decode_streams_mem (engine : List String → List S → T) :
    ∀ (order : List Nat) (ss : List (OfflineStream S T)) (i : Nat) (s : OfflineStream S T),
      i ∈ order → ss[i]? = some s →
      ∃ s', (decode_streams engine order ss)[i]? = some s' ∧
        s'.contexts = s.contexts ∧ s'.samples = s.samples ∧
        s'.result = some (engine s.contexts s.samples) := by
  intro order
  induction order with
  | nil => intro ss i s hmem _; simp at hmem
  | cons j rest ih =>
    intro ss i s hmem hs
    by_cases hir : i ∈ rest
    · have hsig := decodeOne_sig engine ss j i
      rw [hs] at hsig
      obtain ⟨s'', hs'', hsig''⟩ := Option.map_eq_some'.mp hsig
      obtain ⟨hctx, hsmp⟩ := Prod.mk.injEq .. ▸ hsig''
      obtain ⟨s', h1, h2, h3, h4⟩ := ih (decodeOne engine ss j) i s'' hir hs''
      exact ⟨s', h1, h2.trans hctx, h3.trans hsmp, by rw [h4, hctx, hsmp]⟩
    · have hij : i = j := by
        rcases List.mem_cons.mp hmem with h | h
        · exact h
        · exact absurd h hir
      subst hij
      have hlt : i < ss.length := by
        by_contra hge
        rw [List.getElem?_eq_none (Nat.le_of_not_lt hge)] at hs
        exact Option.noConfusion hs
      have hone : (decodeOne engine ss i)[i]? =
          some { s with result := some (engine s.contexts s.samples) } := by
        unfold decodeOne
        rw [hs]
        rw [List.getElem?_set_self hlt]
      have : (decode_streams engine (i :: rest) ss)[i]? =
          (decode_streams engine rest (decodeOne engine ss i))[i]? := rfl
      rw [this, decode_streams_not_mem engine rest _ i hir, hone]
      exact ⟨_, rfl, rfl, rfl, rfl⟩

end StreamLemmas

/-- Claim C1: for every batch of one or more input files whose run
succeeds (`mainFn` returns `ok`), and any internal engine processing
order that covers every submitted stream, the i-th printed output block
pairs the i-th input filename with the transcript of the stream built
from the i-th input file — result order equals submission order
regardless of the engine-internal reordering `w.order`. -/
theorem decode_order_matches_submission {S T : Type} (w : World S T) (a : Args)
    (evs : List Event) (out : List (String × Option T))
    (hrun : mainFn w a = (evs, .ok out))
    (hord : ∀ j, j < a.sound_files.length → j ∈ w.order)
    (i : Nat) (hi : i < a.sound_files.length) :
    ∃ s, (read_sound_files w.decodeWave w.resample a.sound_files a.sample_rate)[i]? = some s ∧
      out[i]? = some (a.sound_files[i], some (w.engine (contextsOf a.contexts) s)) := by
  unfold mainFn at hrun
  split at hrun
  · exact absurd (Prod.mk.injEq .. ▸ hrun).2 (by simp)
  · simp only [Prod.mk.injEq, Except.ok.injEq] at hrun
    obtain ⟨hevs, hout⟩ := hrun
    have hsl : (read_sound_files w.decodeWave w.resample a.sound_files a.sample_rate).length
        = a.sound_files.length := by
      simp [read_sound_files]
    obtain ⟨sm, hsm⟩ : ∃ sm,
        (read_sound_files w.decodeWave w.resample a.sound_files a.sample_rate)[i]? = some sm :=
      ⟨_, List.getElem?_eq_getElem (hsl ▸ hi)⟩
    have hstream :
        ((read_sound_files w.decodeWave w.resample a.sound_files a.sample_rate).map
          (fun s => (OfflineStream.mk (contextsOf a.contexts) s none : OfflineStream S T)))[i]? =
        some (OfflineStream.mk (contextsOf a.contexts) sm none : OfflineStream S T) := by
      rw [List.getElem?_map, hsm]
      rfl
    obtain ⟨s', hdec, hctx, hsmp, hres⟩ :=
      decode_streams_mem w.engine w.order _ i _ (hord i hi) hstream
    refine ⟨sm, hsm, ?_⟩
    rw [← hout]
    rw [List.getElem?_zip_eq_some]
    refine ⟨List.getElem?_eq_getElem hi, ?_⟩
    rw [List.getElem?_map, hdec]
    simp [hres]

/-- Witness for claim C1 at a concrete two-file batch whose engine
processes the streams in reversed order. -/
theorem decode_order_matches_submission_witness :
    ∃ s, (read_sound_files worldW.decodeWave worldW.resample argsW1.sound_files
        argsW1.sample_rate)[1]? = some s ∧
      [("a.wav", some 2), ("b.wav", some 3)][1]? =
        some (argsW1.sound_files.get ⟨1, by decide⟩,
          some (worldW.engine (contextsOf argsW1.contexts) s)) :=
  decode_order_matches_submission worldW argsW1
    [Event.modelLoaded, Event.audioRead "a.wav", Event.audioRead "b.wav", Event.decodedBatch]
    [("a.wav", some 2), ("b.wav", some 3)]
    (by decide)
    (by
      intro j hj
      have h2 : j < 2 := by simpa [argsW1] using hj
      interval_cases j <;> decide)
    1 (by decide)

/-- Counterexample to claim C2 as stated: with the model and token table
present but the LG file missing and an unsupported decoding method,
validation reports `UnsupportedMethod`, not the missing LG file, so the
existence check for the optional LG file does not run before the
decoding-method check. -/
theorem validation_file_order_counterexample :
    fsC2 argsC2.lg = false ∧
    check_args fsC2 argsC2 = .error (.unsupportedMethod (some "bogus")) := by decide

/-- Claim C2 (amended): checks run in a fixed order stopping at the first
violation, but only the model and token-table existence checks precede
the decoding-method check; the subword-model existence check runs inside
the bias-phrase step and the LG existence check runs after the
numeric-range checks. -/
theorem validation_order_amended (fs : String → Bool) (a : Args) :
    (fs a.nn_model = false → check_args fs a = .error (.missingFile a.nn_model)) ∧
    (fs a.nn_model = true → fs a.tokens = false →
      check_args fs a = .error (.missingFile a.tokens)) ∧
    (fs a.nn_model = true → fs a.tokens = true → a.decoding_method ∉ supportedMethods →
      check_args fs a = .error (.unsupportedMethod a.decoding_method)) ∧
    (fs a.nn_model = true → fs a.tokens = true →
      a.decoding_method = some "modified_beam_search" →
      pyStrip a.contexts ≠ "" → pyIn "bpe" a.modeling_unit = true → fs a.bpe_model = false →
      check_args fs a = .error (.missingFile a.bpe_model)) ∧
    (fs a.nn_model = true → fs a.tokens = true →
      a.decoding_method = some "fast_beam_search" → pyStrip a.contexts = "" →
      a.lg ≠ "" → fs a.lg = false →
      check_args fs a = .error (.missingFile a.lg)) := by
  unfold check_args
  split_ifs <;> refine ⟨?_, ?_, ?_, ?_, ?_⟩ <;> intros <;> simp_all [supportedMethods]

/-- Witness for claim C2 (amended) at a concrete argument set with a
missing token table. -/
theorem validation_order_amended_witness :
    check_args fsC2 { argsC2 with tokens := "missing.txt" } =
      .error (.missingFile "missing.txt") :=
  (validation_order_amended fsC2 { argsC2 with tokens := "missing.txt" }).2.1
    (by decide) (by decide)

/-- Counterexample to claim C3 as stated: a contexts string consisting of
a single space is non-empty, the decoding method is not
modified_beam_search, and yet validation succeeds, because the code
tests `contexts.strip() != ""`. -/
theorem contexts_nonempty_counterexample :
    argsC3.contexts ≠ "" ∧
    argsC3.decoding_method ≠ some "modified_beam_search" ∧
    check_args fsC3 argsC3 = .ok () := by decide

/-- Claim C3 (amended): if the contexts string is non-empty after
stripping surrounding whitespace and the decoding method is not
modified_beam_search, validation never succeeds; when the model and
token files exist and the method is supported, it fails with the
incompatible-option error. -/
theorem contexts_stripped_incompatible (fs : String → Bool) (a : Args)
    (hc : pyStrip a.contexts ≠ "")
    (hm : a.decoding_method ≠ some "modified_beam_search") :
    check_args fs a ≠ .ok () ∧
    (fs a.nn_model = true → fs a.tokens = true → a.decoding_method ∈ supportedMethods →
      check_args fs a = .error .incompatibleOption) := by
  unfold check_args
  split_ifs <;> refine ⟨?_, ?_⟩ <;> intros <;> simp_all

/-- Witness for claim C3 (amended) at a concrete argument set. -/
theorem contexts_stripped_incompatible_witness :
    check_args fsC3 { argsC3 with contexts := " HI " } = .error .incompatibleOption :=
  (contexts_stripped_incompatible fsC3 { argsC3 with contexts := " HI " }
    (by decide) (by decide)).2 (by decide) (by decide) (by decide)

/-- Claim C4: validation succeeds only if the decoding method is one of
greedy_search, modified_beam_search, fast_beam_search; for every other
value (an omitted method included) validation fails, and reports
`UnsupportedMethod` once the file checks preceding it pass. -/
theorem decoding_method_validated (fs : String → Bool) (a : Args) :
    (check_args fs a = .ok () → a.decoding_method ∈ supportedMethods) ∧
    (a.decoding_method ∉ supportedMethods →
      check_args fs a ≠ .ok () ∧
      (fs a.nn_model = true → fs a.tokens = true →
        check_args fs a = .error (.unsupportedMethod a.decoding_method))) := by
  unfold check_args
  split_ifs with h1 h2 h3 h4 h5 h6 h7 h8 h9 <;>
    refine ⟨?_, ?_⟩ <;> intros <;> simp_all

/-- Witness for claim C4 at a concrete argument set with an omitted
decoding method. -/
theorem decoding_method_validated_witness :
    check_args fsC2 { argsC2 with decoding_method := none } =
      .error (.unsupportedMethod none) :=
  ((decoding_method_validated fsC2 { argsC2 with decoding_method := none }).2
    (by decide)).2 (by decide) (by decide)

/-- Claim C5: context preprocessing splits the raw string on `/`, trims
each piece, drops pieces empty after trimming and upper-cases the rest;
in particular the documented example yields exactly its three phrases in
order. -/
theorem contexts_preprocessing (s : String) :
    contextsOf s = contextsSpec s ∧
    contextsOf "HELLO WORLD/I LOVE YOU/GO AWAY" = ["HELLO WORLD", "I LOVE YOU", "GO AWAY"] := by
  constructor
  · unfold contextsOf contextsSpec
    induction pySplitSlash s with
    | nil => rfl
    | cons x xs ih =>
      by_cases h : pyStrip x = "" <;> simp_all
  · decide

/-- Claim C6: when the native sample rate equals the expected rate the
loader performs no resampling — the returned 1-D sequence is the first
channel of the decoded waveform unchanged, whatever the resampler would
do, and on multi-channel input only the first channel is retained. -/
theorem read_sound_files_first_channel {S : Type}
    (decodeWave : String → List (List S) × Nat)
    (resample : List (List S) → Nat → Nat → List (List S))
    (filenames : List String) (rate : Nat) (i : Nat) (hi : i < filenames.length)
    (ch0 : List S) (chs : List (List S))
    (hdec : decodeWave filenames[i] = (ch0 :: chs, rate)) :
    (read_sound_files decodeWave resample filenames rate)[i]? = some ch0 := by
  unfold read_sound_files
  rw [List.getElem?_map, List.getElem?_eq_getElem hi]
  simp [hdec]

/-- Witness for claim C6 at a concrete two-channel 16 kHz file. -/
theorem read_sound_files_first_channel_witness :
    (read_sound_files (fun _ => ([[(1 : Int), 2, 3], [4, 5, 6]], 16000))
      (fun wv _ _ => wv) ["a.wav"] 16000)[0]? = some [1, 2, 3] :=
  read_sound_files_first_channel _ _ ["a.wav"] 16000 0 (by decide)
    [1, 2, 3] [[4, 5, 6]] (by decide)

/-- Claim C7: a vocabulary whose N lines carry N pairwise-distinct token
strings loads to a mapping with exactly N entries, each token mapped to
its integer id; if two lines share a token string, loading fails with
the duplicate-entry error. -/
theorem token_table_load (lines : List String) (pairs : List (String × Int))
    (hp : lines.map parseLine = pairs.map some) :
    ((pairs.map Prod.fst).Nodup →
      loadTokens lines = .ok pairs ∧
      pairs.length = lines.length ∧
      ∀ p ∈ pairs, pairs.lookup p.1 = some p.2) ∧
    (¬ (pairs.map Prod.fst).Nodup →
      ∃ t, loadTokens lines = .error (.duplicateToken t)) := by
  have hlen : pairs.length = lines.length := by
    have := congrArg List.length hp
    simpa using this.symm
  constructor
  · intro hnd
    refine ⟨?_, hlen, fun p hp' => lookup_of_mem_nodup pairs p hnd hp'⟩
    have := load_tokens_ok_of_nodup lines [] pairs hp (by simpa using hnd)
    simpa [loadTokens] using this
  · intro hdup
    have := load_tokens_dup_error lines [] pairs hp (by simp) (by simpa using hdup)
    simpa [loadTokens] using this

/-- Witness for claim C7 on a two-line table and on a duplicated
table. -/
theorem token_table_load_witness :
    loadTokens ["blank 0", "a 1"] = .ok [("blank", 0), ("a", 1)] ∧
    ∃ t, loadTokens ["a 1", "a 2"] = .error (.duplicateToken t) := by
  constructor
  · exact ((token_table_load ["blank 0", "a 1"] [("blank", 0), ("a", 1)]
      (by decide)).1 (by decide)).1
  · exact (token_table_load ["a 1", "a 2"] [("a", 1), ("a", 2)]
      (by decide)).2 (by decide)

/-- Claim C8: validation runs before any resource is touched — on any
validation failure `mainFn` aborts with that error having performed no
resource event (no model load, no audio read); in particular a missing
token table aborts this way. -/
theorem validation_before_resources {S T : Type} (w : World S T) (a : Args) :
    (∀ e, check_args w.fs a = .error e → mainFn w a = ([], .error e)) ∧
    (w.fs a.nn_model = true → w.fs a.tokens = false →
      mainFn w a = ([], .error (.missingFile a.tokens))) := by
  constructor
  · intro e he
    unfold mainFn
    rw [he]
  · intro h1 h2
    have he : check_args w.fs a = .error (.missingFile a.tokens) := by
      unfold check_args
      split_ifs <;> simp_all
    unfold mainFn
    rw [he]

/-- Witness for claim C8 at a concrete argument set with a missing
token table. -/
theorem validation_before_resources_witness :
    mainFn worldW
      { nn_model := "model.pt", tokens := "missing.txt",
        decoding_method := some "greedy_search", sound_files := ["a.wav"] } =
      ([], .error (.missingFile "missing.txt")) :=
  (validation_before_resources worldW
    { nn_model := "model.pt", tokens := "missing.txt",
      decoding_method := some "greedy_search", sound_files := ["a.wav"] }).2
    (by decide) (by decide)

set_option maxHeartbeats 1600000 in
/-- Claim C9: with decoding method modified_beam_search, validation fails
when the active-path count or the temperature is not positive — with the
invalid-value error naming the offending parameter once the earlier
checks pass — and these numeric checks never fire when both are
positive. -/
theorem mbs_numeric_ranges (fs : String → Bool) (a : Args)
    (hm : a.decoding_method = some "modified_beam_search") :
    ((¬ 0 < a.num_active_paths ∨ ¬ 0 < a.temperature) → check_args fs a ≠ .ok ()) ∧
    (fs a.nn_model = true → fs a.tokens = true →
      (pyStrip a.contexts = "" ∨ pyIn "bpe" a.modeling_unit = false ∨ fs a.bpe_model = true) →
      ((¬ 0 < a.num_active_paths →
          check_args fs a = .error (.invalidValue "num_active_paths")) ∧
        (0 < a.num_active_paths → ¬ 0 < a.temperature →
          check_args fs a = .error (.invalidValue "temperature")))) ∧
    (0 < a.num_active_paths → 0 < a.temperature →
      ∀ which, check_args fs a ≠ .error (.invalidValue which)) := by
  unfold check_args
  split_ifs <;> refine ⟨?_, ?_, ?_⟩ <;> intros <;>
    (try cases hfind : a.sound_files.find? (fun f => ! fs f)) <;>
    simp_all [supportedMethods]

/-- Witness for claim C9 at a concrete argument set with a zero
active-path count. -/
theorem mbs_numeric_ranges_witness :
    check_args fsC2
      { nn_model := "model.pt", tokens := "tokens.txt",
        decoding_method := some "modified_beam_search", num_active_paths := 0,
        sound_files := ["a.wav"] } = .error (.invalidValue "num_active_paths") :=
  ((mbs_numeric_ranges fsC2
      { nn_model := "model.pt", tokens := "tokens.txt",
        decoding_method := some "modified_beam_search", num_active_paths := 0,
        sound_files := ["a.wav"] } (by decide)).2.1
    (by decide) (by decide) (by decide)).1 (by decide)

/-- Claim C10: validation decides that bias phrases are supplied by
whether the contexts string is non-empty after stripping, not by whether
any phrase survives splitting: a contexts string of a single `/` with
greedy search fails with the incompatible-option error even though
phrase extraction yields the empty list. -/
theorem contexts_strip_semantics :
    argsC10.contexts = "/" ∧
    argsC10.decoding_method = some "greedy_search" ∧
    contextsOf argsC10.contexts = [] ∧
    check_args fsC10 argsC10 = .error .incompatibleOption := by decide
